import Mathlib

/-!
Verification development for the NYPL-Simplified self-test client.

The Python sources (`self-test.py`, `model.py`, `authentication-test-clever.py`)
are shallowly embedded below: every pure computation is translated to an
executable Lean definition, stateful or effectful code is rendered as explicit
state passing (the diagnostics a routine prints, the HTTP dispatches it makes,
and the exception it raises, if any, are returned as data).  Python dynamic
values arriving from `json.loads` are modeled by an inductive `Json` type, and
Python truthiness is modeled explicitly wherever the source relies on it.
-/

/-! ## Media-type constants (class `Constants` in both scripts) -/

def OPDS_1 : String := "application/atom+xml;profile=opds-catalog;kind=acquisition"

def OPDS_2 : String := "application/opds+json"

def AUTHENTICATION_DOCUMENT : String := "application/vnd.opds.authentication.v1.0+json"

def PATRON_PROFILE_DOCUMENT : String := "vnd.librarysimplified/user-profile+json"

def ACSM : String := "application/vnd.adobe.adept+xml"

def AUDIOBOOK_JSON : String := "application/audiobook+json"

def PROBLEM_DETAIL : String := "application/api-problem+json"

/-! ## Short Client Token decomposition (`LibraryRegistry.CLIENT_TOKEN_RE` and
`LibraryRegistry.decompose_token` in `self-test.py`)

The verbose regular expression is

  `^(?P<library>[^|]+)\|(?P<timestamp>[0-9]+)\|(?P<patron_id>[-A-Za-z0-9]{36})\|(?P<signature_hash>.*)$`

compiled with `re.IGNORECASE`.  For this pattern the Python matcher is
deterministic: `[^|]+` can never cross a pipe, a shortened `[0-9]+` run would
leave a digit where the literal `\|` must match, and `{36}` admits no
backtracking; so field boundaries are forced and the match is faithfully
rendered by the first-pipe / digit-run / take-36 parser below.  Without
`re.DOTALL`, `.` does not match a newline and `$` matches at the end of the
string or just before a terminating newline.  Because the pattern is compiled
with `re.IGNORECASE` and without `re.ASCII`, the letter ranges of
`[-A-Za-z0-9]` additionally admit exactly four non-ASCII letters whose case
foldings land in A-Z/a-z: U+0130 (dotted capital I), U+0131 (dotless small i),
U+017F (long s) and U+212A (Kelvin sign); an exhaustive scan of the compiled
class over every code point confirms these are the only extras.  `[0-9]` and
`[^|]` are unaffected by the flag. -/

/-- One character of the `patron_id` class `[-A-Za-z0-9]` of `CLIENT_TOKEN_RE`
under `re.IGNORECASE`: hyphen, ASCII letters and digits, plus the four
case-folding extras U+0130, U+0131, U+017F, U+212A. -/
def isPatronChar (c : Char) : Bool :=
  c = '-' || c.isAlpha || c.isDigit
    || c = 'İ' || c = 'ı' || c = 'ſ' || c = 'K'

/-- Split a character list at its first pipe: `some (before, after)` when a
pipe exists, `none` otherwise.  Models how `(?P<library>[^|]+)\|` consumes
input (the group can never extend across a pipe). -/
def splitFirstPipe : List Char → Option (List Char × List Char)
  | [] => none
  | c :: rest =>
    if c = '|' then some ([], rest)
    else
      match splitFirstPipe rest with
      | some (a, b) => some (c :: a, b)
      | none => none

/-- Model of `(?P<signature_hash>.*)$` without `re.DOTALL`: `.*` greedily
consumes up to the first newline or the end, and `$` succeeds at the end of the
string or just before a single terminating newline.  Returns the captured
group on success. -/
def matchDotStarEnd (cs : List Char) : Option (List Char) :=
  let sig := cs.takeWhile (fun c => c != '\n')
  match cs.dropWhile (fun c => c != '\n') with
  | [] => some sig
  | [_] => some sig
  | _ => none

/-- The full `CLIENT_TOKEN_RE.match`: returns the four captured groups
`(library, timestamp, patron_id, signature_hash)` or `none`. -/
def clientTokenMatch (cs : List Char) :
    Option (List Char × List Char × List Char × List Char) :=
  match splitFirstPipe cs with
  | none => none
  | some (lib, rest1) =>
    if lib = [] then none
    else
      let ts := rest1.takeWhile Char.isDigit
      match rest1.dropWhile Char.isDigit with
      | [] => none
      | c :: rest3 =>
        if ts = [] then none
        else if c != '|' then none
        else
          let pid := rest3.take 36
          if pid.length = 36 && pid.all isPatronChar then
            match rest3.drop 36 with
            | [] => none
            | d :: rest4 =>
              if d != '|' then none
              else
                match matchDotStarEnd rest4 with
                | some sig => some (lib, ts, pid, sig)
                | none => none
          else none

/-- Substring test, as in Python `"drm:clientToken" in token`. -/
def containsSub (pat : List Char) : List Char → Bool
  | [] => pat.isPrefixOf ([] : List Char)
  | c :: rest => pat.isPrefixOf (c :: rest) || containsSub pat rest

/-- Worker for `removeOcc`, structurally recursive on a fuel counter so that
it reduces definitionally.  Every step consumes at least one character, so
with starting fuel equal to the input length the exhaustion branch (which
returns the input unchanged) is never taken. -/
def removeOccFuel (pat : List Char) : Nat → List Char → List Char
  | _, [] => []
  | 0, cs => cs
  | fuel + 1, c :: rest =>
    if pat.isPrefixOf (c :: rest) then
      removeOccFuel pat fuel (rest.drop (pat.length - 1))
    else
      c :: removeOccFuel pat fuel rest

/-- Remove every (leftmost, non-overlapping) occurrence of `pat`, as in Python
`s.replace(pat, "")`; scanning resumes after each removed occurrence. -/
def removeOcc (pat cs : List Char) : List Char :=
  removeOccFuel pat cs.length cs

/-- The wrapper stripping at the top of `decompose_token`: when the string
contains `"drm:clientToken"`, delete all `<drm:clientToken>` and then all
`</drm:clientToken>` occurrences. -/
def stripWrapper (cs : List Char) : List Char :=
  if containsSub "drm:clientToken".data cs then
    removeOcc "</drm:clientToken>".data (removeOcc "<drm:clientToken>".data cs)
  else cs

/-- `LibraryRegistry.decompose_token`.  `Except.error msg` models raising
`InvalidShortClientTokenException(msg)`; note the message interpolates the
token after wrapper stripping, exactly as the source reassigns `token`
before matching. -/
def decompose_token (token : String) :
    Except String (String × String × String × String) :=
  let stripped := stripWrapper token.data
  match clientTokenMatch stripped with
  | none => .error ("Invalid token: " ++ String.mk stripped)
  | some (lib, ts, pid, sig) =>
    .ok (String.mk lib, String.mk ts, String.mk pid, String.mk sig)

/-- The sign-in request body that `validate_short_client_token` builds in its
effectful verify phase: `username` is `library|timestamp|patron_id` and
`password` is the signature hash, POSTed to `/AdobeAuth/SignIn` resolved
against the registry base URL. -/
structure SignInRequest where
  username : String
  password : String
deriving DecidableEq

/-- `LibraryRegistry.validate_short_client_token` up to the point where the
sign-in POST is issued.  A `.ok` result carries the request of the verify
phase (the POST is made exactly when decomposition succeeded); a `.error`
result means `decompose_token` raised and the POST was never reached. -/
def validate_short_client_token (token : String) : Except String SignInRequest :=
  match decompose_token token with
  | .error e => .error e
  | .ok (library, timestamp, patron_id, signature_hash) =>
    .ok { username := library ++ "|" ++ timestamp ++ "|" ++ patron_id,
          password := signature_hash }

/-- The four-field shape of `CLIENT_TOKEN_RE` stated declaratively, for
comparison with the executable `clientTokenMatch`: the string is
`library | timestamp | patron_id | signature` (with an optional terminating
newline outside the signature group), the library part is a nonempty pipe-free
run, the timestamp a nonempty digit run, the patron id exactly 36 characters
of the class `[-A-Za-z0-9]` as `re.IGNORECASE` interprets it (see
`isPatronChar`), and the signature newline-free. -/
def ClientTokenPattern (cs : List Char) : Prop :=
  ∃ lib ts pid sig tl,
    cs = lib ++ '|' :: (ts ++ '|' :: (pid ++ '|' :: (sig ++ tl))) ∧
    lib ≠ [] ∧ (∀ c ∈ lib, c ≠ '|') ∧
    ts ≠ [] ∧ (∀ c ∈ ts, Char.isDigit c) ∧
    pid.length = 36 ∧ (∀ c ∈ pid, isPatronChar c = true) ∧
    (∀ c ∈ sig, c ≠ '\n') ∧ (tl = [] ∨ tl = ['\n'])

/-- The character class the specification claims for the `patron_id` field:
hex digits and hyphens, case-insensitively.  Stated from the spec's words, to
be compared against `isPatronChar`, the class the source actually uses. -/
def isHexOrHyphen (c : Char) : Bool :=
  c.isDigit || ('a' ≤ c && c ≤ 'f') || ('A' ≤ c && c ≤ 'F') || c = '-'

/-- Convenience assembly of a four-field token character list. -/
def tokenOfFields (lib ts pid sig : List Char) : List Char :=
  lib ++ '|' :: (ts ++ '|' :: (pid ++ '|' :: sig))

/-! ## Python JSON values

Values produced by `json.loads`.  Numbers are modeled as integers (no claim
exercises fractional numbers); object fields keep their textual order. -/

inductive Json where
  | null
  | bool (b : Bool)
  | num (n : Int)
  | str (s : String)
  | arr (items : List Json)
  | obj (fields : List (String × Json))

/-- Python truthiness of a JSON value (`if not order:` and similar tests). -/
def jsonFalsy : Json → Bool
  | .null => true
  | .bool b => !b
  | .num n => n == 0
  | .str s => s == ""
  | .arr items => items.isEmpty
  | .obj fields => fields.isEmpty

/-- Python `len` on a JSON value: `some` for sized values, `none` models the
`TypeError` raised on numbers, booleans and `None`. -/
def jsonLen : Json → Option Nat
  | .str s => some s.length
  | .arr items => some items.length
  | .obj fields => some fields.length
  | _ => none

/-- Dictionary lookup `d.get(key)` / `key in d` on a JSON object's fields. -/
def jlookup : List (String × Json) → String → Option Json
  | [], _ => none
  | (k, v) :: rest, key => if k = key then some v else jlookup rest key

/-! ## Fulfillment dispatch (`Fulfillment.fulfill` and its `REGISTRY`)

`Fulfillment.REGISTRY` maps the ACSM and audiobook media types to their
handler classes; `REGISTRY.get(type, Fulfillment)` falls back to the generic
handler on any other key (including `None` and non-string values). -/

inductive FulfillClass where
  | acsm
  | audiobookJSON
  | generic
deriving DecidableEq

/-- `cls.REGISTRY.get(type, Fulfillment)`: exact string-key lookup with the
generic class as default. -/
def registryGet : Option Json → FulfillClass
  | some (.str s) =>
    if s = ACSM then .acsm
    else if s = AUDIOBOOK_JSON then .audiobookJSON
    else .generic
  | _ => .generic

/-- Observable actions of a validation routine: error diagnostics
(`self.error`), plain output (`self.p`/`click.echo`), and a recursive
`Fulfillment.fulfill(url, name, type, auth)` dispatch together with the
handler class it selects. -/
inductive Event where
  | errorMsg (msg : String)
  | printMsg (msg : String)
  | dispatch (href : Json) (name : String) (ty : Option Json)
      (auth : Option String) (cls : FulfillClass)

/-- Result of running a validation routine: the events it emitted, and the
Python exception it raised, if any (`none` = returned normally). -/
structure Outcome where
  events : List Event
  exc : Option String

/-- The shared tail of `AudiobookJSONFulfillment.validate` from
`if not order:` onward (identical in `self-test.py` and `model.py`):
report emptiness, else print the count, take `order[0]`, read its `type`,
and dispatch `Fulfillment.fulfill(item1['href'], "first audiobook item",
type, auth=None)` — the instance credentials are deliberately not forwarded.
Subscript and attribute failures of non-conforming values are rendered as the
exceptions Python would raise. -/
def fulfillReadingOrder (order : Json) : Outcome :=
  if jsonFalsy order then
    { events := [.errorMsg "No items in reading order."], exc := none }
  else
    match jsonLen order with
    | none => { events := [], exc := some "TypeError" }
    | some n =>
      let countMsg := Event.printMsg ("Items in reading order: " ++ toString n)
      match order with
      | .arr (item1 :: _) =>
        let evs := [countMsg, .printMsg "Trying to fulfill first item."]
        match item1 with
        | .obj ifields =>
          let ty := jlookup ifields "type"
          match jlookup ifields "href" with
          | none => { events := evs, exc := some "KeyError" }
          | some href =>
            { events := evs ++
                [.dispatch href "first audiobook item" ty none (registryGet ty)],
              exc := none }
        | _ => { events := evs, exc := some "AttributeError" }
      | .str _ =>
        { events := [countMsg, .printMsg "Trying to fulfill first item."],
          exc := some "AttributeError" }
      | .obj _ => { events := [countMsg], exc := some "KeyError" }
      | _ => { events := [countMsg], exc := some "TypeError" }

/-- `AudiobookJSONFulfillment.validate` of `self-test.py` on an
already-parsed JSON object (its fields) and the instance's credentials.
When `readingOrder` is absent the error is logged and then
`order = parsed['readingOrder']` raises `KeyError` (there is no `return`
after the error in this script). -/
def audiobook_validate (fields : List (String × Json)) (_auth : Option String) :
    Outcome :=
  match jlookup fields "readingOrder" with
  | none =>
    { events := [.errorMsg "readingOrder not present in audiobook manifest"],
      exc := some "KeyError" }
  | some order => fulfillReadingOrder order

/-- `AudiobookJSONFulfillment.validate` of `model.py`: identical except that
the missing-key branch ends with `return`, so the error is logged and the
routine returns normally. -/
def audiobook_validate_model (fields : List (String × Json))
    (_auth : Option String) : Outcome :=
  match jlookup fields "readingOrder" with
  | none =>
    { events := [.errorMsg "readingOrder not present in audiobook manifest"],
      exc := none }
  | some order => fulfillReadingOrder order

/-! ## OPDS1 feed grouping (`OPDS1Feed.validate`)

A feed entry is viewed through the markup collaborator of the spec:
`title` is the result of `e.find('title')` (`none` = no such tag, otherwise
the tag's `.string`, itself possibly null), and `collection` is the result of
`e.find('link', rel="collection")` (`none` = no such link, otherwise that
link's `title` attribute via `.get('title', None)`). -/

structure FeedEntry where
  title : Option (Option String)
  collection : Option (Option String)
deriving DecidableEq

/-- The `title` variable after the `if title: ... else: title = None` dance. -/
def entryTitle (e : FeedEntry) : Option String :=
  match e.title with
  | some t => t
  | none => none

/-- `defaultdict(list)` update `collections[key].append(t)`: append to the
existing group or create a new one at the end (Python dicts preserve
insertion order). -/
def appendToGroup (key : Option String) (t : Option String) :
    List (Option String × List (Option String)) →
    List (Option String × List (Option String))
  | [] => [(key, [t])]
  | (k, v) :: rest =>
    if k = key then (k, v ++ [t]) :: rest else (k, v) :: appendToGroup key t rest

/-- One iteration of the `for e in self.entries:` loop, threading the
`(collections, titles)` accumulator. -/
def collectStep
    (acc : List (Option String × List (Option String)) × List (Option String))
    (e : FeedEntry) :
    List (Option String × List (Option String)) × List (Option String) :=
  let t := entryTitle e
  let titles := acc.2 ++ [t]
  match e.collection with
  | some ctitle => (appendToGroup ctitle t acc.1, titles)
  | none => (acc.1, titles)

/-- The whole entry scan of `OPDS1Feed.validate`: the `collections` mapping
and the `titles` list after the loop. -/
def collectFeed (entries : List FeedEntry) :
    List (Option String × List (Option String)) × List (Option String) :=
  entries.foldl collectStep ([], [])

/-- What `OPDS1Feed.validate` reports after the scan. -/
inductive FeedReport where
  | grouped (groups : List (Option String × Nat))
  | ungrouped (total : Nat)
deriving DecidableEq

/-- The `if collections:` branch of `OPDS1Feed.validate`: a grouped feed
reports one count per collection key, an ungrouped feed the total title
count.  (The source prints the grouped lines after `sorted(...)`; sorting
only permutes the report, so the groups are kept in insertion order here.) -/
def feedReport (entries : List FeedEntry) : FeedReport :=
  match collectFeed entries with
  | ([], titles) => .ungrouped titles.length
  | (cols, _) => .grouped (cols.map fun kv => (kv.1, kv.2.length))

/-- Sum of the per-group title counts of a collections mapping. -/
def groupSizes (cols : List (Option String × List (Option String))) : Nat :=
  (cols.map fun kv => kv.2.length).sum

/-! ## Lazily memoized document body (`MakesRequests.get`)

`get` performs `self.request(...)` exactly when `not self._representation`
holds; the transport's reply for the would-be request is passed in as the
`fetched` argument, and the result records whether a request was actually
issued. -/

/-- The `self._representation` instance slot (`none` models Python `None`). -/
structure DocState where
  representation : Option String
deriving DecidableEq

/-- Python truthiness of the `_representation` slot: `None` and the empty
body are both falsy. -/
def pyFalsyRep : Option String → Bool
  | none => true
  | some s => s == ""

/-- Value, updated state and request flag of one `MakesRequests.get` call. -/
structure GetResult where
  body : String
  state : DocState
  requested : Bool
deriving DecidableEq

/-- `MakesRequests.get` (identical in `self-test.py` and `model.py`). -/
def MakesRequests.get (st : DocState) (fetched : String) : GetResult :=
  if pyFalsyRep st.representation then
    { body := fetched, state := { representation := some fetched }, requested := true }
  else
    { body := st.representation.getD "", state := st, requested := false }

/-! ## Fetcher warnings (`MakesRequests.request`)

The warning-emitting checks of `request`, in source order.  The status test
is Python 3 true division: `response.status_code / 100 != 2` compares the
exact rational quotient with 2 (for the integer inputs at hand the float
quotient is exact enough that the rational model coincides). -/

inductive Warning where
  | statusCode (code : Nat)
  | problemDetail
  | contentTypeMismatch (expected : String) (got : Option String)
deriving DecidableEq

/-- Whether `request` emits the status-code warning. -/
def statusWarns (status_code : Nat) : Bool :=
  decide ((status_code : ℚ) / 100 ≠ 2)

/-- Python truthiness of an optional header / content-type string. -/
def pyTruthyStrOpt (o : Option String) : Bool :=
  !pyFalsyRep o

/-- The warnings `MakesRequests.request` emits for a response with the given
status code and `Content-Type` header, under the given expected content
type.  The body is returned and cached regardless (no warning raises). -/
def requestWarnings (status_code : Nat) (content_type : Option String)
    (expect_content_type : Option String) : List Warning :=
  (if statusWarns status_code then [Warning.statusCode status_code] else [])
  ++ (if content_type = some PROBLEM_DETAIL then [Warning.problemDetail] else [])
  ++ (if pyTruthyStrOpt expect_content_type
        && (!pyTruthyStrOpt content_type
            || !((content_type.getD "").startsWith (expect_content_type.getD ""))) then
        [Warning.contentTypeMismatch (expect_content_type.getD "") content_type]
      else [])

/-! ## `AuthenticationDocument.main_catalog`

One entry of the document's `links` array as the comprehension reads it:
`x['href']`, `x.get('rel')` and `x.get('type', '')` (the optional fields are
modeled as optional strings). -/

structure AuthLink where
  href : String
  rel : Option String
  linkType : Option String
deriving DecidableEq

/-- The list comprehension of `main_catalog`: hrefs of links with
`rel == 'start'` whose type prefix-matches the OPDS1 media type. -/
def mainCatalogLinks (links : List AuthLink) : List String :=
  (links.filter fun x =>
    x.rel == some "start" && (x.linkType.getD "").startsWith OPDS_1).map
    fun x => x.href

/-- `AuthenticationDocument.main_catalog` (identical in `self-test.py` and
`model.py`): the error diagnostics it logs, and the URL of the `OPDS1Feed`
it constructs — `none` means `links[0]` raised `IndexError` on the empty
list, so no feed object was produced. -/
def main_catalog (links : List AuthLink) : List String × Option String :=
  let hrefs := mainCatalogLinks links
  let errs :=
    if hrefs.isEmpty then
      ["Authentication document does not contain a usable 'start' link!"]
    else []
  (errs, hrefs.head?)

/-! ## `LibraryRegistry.authentication_document` (`self-test.py`) -/

/-- One entry of a registry catalog's `links` array (`link['type']`,
`link['href']`). -/
structure RegLink where
  linkType : String
  href : String
deriving DecidableEq

/-- One catalog descriptor of the registry's `catalogs` array, as stored in
the `self.libraries` mapping. -/
structure Catalog where
  links : List RegLink
deriving DecidableEq

/-- Lookup in the `self.libraries` dictionary. -/
def lookupLibrary : List (String × Catalog) → String → Option Catalog
  | [], _ => none
  | (k, v) :: rest, key => if k = key then some v else lookupLibrary rest key

/-- The `for link in ...: if link['type'] == AUTHENTICATION_DOCUMENT: ...
break` loop: the href of the first authentication-document-typed link. -/
def findAuthLink : List RegLink → Option String
  | [] => none
  | l :: rest =>
    if l.linkType = AUTHENTICATION_DOCUMENT then some l.href else findAuthLink rest

/-- What the `authentication_document` method evaluates to: `null` models
`return None`; `constructed url` models `return AuthenticationDocument(url)`,
whose constructor immediately uses `url` as its fetch target (`url = none`
models passing Python `None`). -/
inductive AuthDocOutcome where
  | null
  | constructed (url : Option String)
deriving DecidableEq

/-- `LibraryRegistry.authentication_document` of `self-test.py`: direct URLs
are passed through, unknown names return `None`, and a known library's
catalog is scanned for an authentication link; when none is found (or its
href is falsy) an error is logged and the constructor is still invoked with
the scan result. -/
def authentication_document (libraries : List (String × Catalog)) (name : String) :
    List String × AuthDocOutcome :=
  if name.startsWith "http" then ([], .constructed (some name))
  else
    match lookupLibrary libraries name with
    | none => ([], .null)
    | some cat =>
      let authentication_link := findAuthLink cat.links
      let errs :=
        if pyFalsyRep authentication_link then
          ["No authentication link found for library " ++ name]
        else []
      (errs, .constructed authentication_link)

/-! ## Helper lemmas about the token matcher -/

theorem splitFirstPipe_append (lib rest : List Char) (h : ∀ c ∈ lib, c ≠ '|') :
    splitFirstPipe (lib ++ '|' :: rest) = some (lib, rest) := by
  induction lib with
  | nil => simp [splitFirstPipe]
  | cons c lib ih =>
    have hc : c ≠ '|' := h c (by simp)
    have ih2 := ih (fun x hx => h x (List.mem_cons_of_mem _ hx))
    simp [splitFirstPipe, hc, ih2]

theorem splitFirstPipe_eq_some (cs : List Char) :
    ∀ a b, splitFirstPipe cs = some (a, b) →
      cs = a ++ '|' :: b ∧ ∀ c ∈ a, c ≠ '|' := by
  induction cs with
  | nil => intro a b h; simp [splitFirstPipe] at h
  | cons c rest ih =>
    intro a b h
    by_cases hc : c = '|'
    · subst hc
      simp only [splitFirstPipe, if_pos rfl, Option.some_inj, Prod.mk.injEq] at h
      obtain ⟨rfl, rfl⟩ := h
      simp
    · simp only [splitFirstPipe, if_neg hc] at h
      cases hsp : splitFirstPipe rest with
      | none => rw [hsp] at h; simp at h
      | some ab =>
        obtain ⟨a1, b1⟩ := ab
        rw [hsp] at h
        simp only [Option.some_inj, Prod.mk.injEq] at h
        obtain ⟨rfl, rfl⟩ := h
        obtain ⟨heq, hmem⟩ := ih a1 b1 hsp
        constructor
        · rw [heq]; rfl
        · intro x hx
          rcases List.mem_cons.mp hx with rfl | hx1
          · exact hc
          · exact hmem x hx1

theorem takeWhile_all (p : Char → Bool) (xs : List Char)
    (h : ∀ c ∈ xs, p c = true) :
    xs.takeWhile p = xs ∧ xs.dropWhile p = [] := by
  induction xs with
  | nil => simp
  | cons x xs ih =>
    have hx := h x (by simp)
    have ih2 := ih (fun c hc => h c (List.mem_cons_of_mem _ hc))
    simp [List.takeWhile_cons, List.dropWhile_cons, hx, ih2.1, ih2.2]

theorem takeWhile_all_append (p : Char → Bool) (xs : List Char) (b : Char)
    (rest : List Char) (h1 : ∀ c ∈ xs, p c = true) (h2 : p b = false) :
    (xs ++ b :: rest).takeWhile p = xs ∧ (xs ++ b :: rest).dropWhile p = b :: rest := by
  induction xs with
  | nil => simp [List.takeWhile_cons, List.dropWhile_cons, h2]
  | cons x xs ih =>
    have hx := h1 x (by simp)
    have ih2 := ih (fun c hc => h1 c (List.mem_cons_of_mem _ hc))
    simp [List.takeWhile_cons, List.dropWhile_cons, hx, ih2.1, ih2.2]

theorem dropWhile_head_false (p : Char → Bool) (cs : List Char) :
    ∀ c rest, cs.dropWhile p = c :: rest → p c = false := by
  induction cs with
  | nil => intro c rest h; simp [List.dropWhile] at h
  | cons x xs ih =>
    intro c rest h
    rw [List.dropWhile_cons] at h
    by_cases hx : p x = true
    · rw [if_pos hx] at h; exact ih c rest h
    · rw [if_neg hx] at h
      obtain ⟨rfl, -⟩ := List.cons.inj h
      exact Bool.eq_false_iff.mpr hx

theorem matchDotStarEnd_eq_some (cs sig : List Char)
    (h : matchDotStarEnd cs = some sig) :
    (∀ c ∈ sig, c ≠ '\n') ∧ (cs = sig ∨ cs = sig ++ ['\n']) := by
  unfold matchDotStarEnd at h
  have hcs := List.takeWhile_append_dropWhile (p := fun c => c != '\n') (l := cs)
  cases hdw : cs.dropWhile (fun c => c != '\n') with
  | nil =>
    rw [hdw] at h hcs
    rw [List.append_nil] at hcs
    simp only [Option.some_inj] at h
    subst h
    exact ⟨fun c hc => by simpa using List.mem_takeWhile_imp hc, Or.inl hcs.symm⟩
  | cons d t =>
    cases t with
    | nil =>
      have hd : (d != '\n') = false := dropWhile_head_false _ cs d [] hdw
      have hd2 : d = '\n' := by simpa using hd
      subst hd2
      rw [hdw] at h hcs
      simp only [Option.some_inj] at h
      subst h
      exact ⟨fun c hc => by simpa using List.mem_takeWhile_imp hc, Or.inr hcs.symm⟩
    | cons d2 t2 =>
      rw [hdw] at h
      simp at h

theorem matchDotStarEnd_construct (sig tl : List Char)
    (h1 : ∀ c ∈ sig, c ≠ '\n') (h2 : tl = [] ∨ tl = ['\n']) :
    matchDotStarEnd (sig ++ tl) = some sig := by
  have hp : ∀ c ∈ sig, (c != '\n') = true := fun c hc => by simpa using h1 c hc
  rcases h2 with rfl | rfl
  · have := takeWhile_all (fun c => c != '\n') sig hp
    unfold matchDotStarEnd
    rw [List.append_nil, this.1, this.2]
  · have := takeWhile_all_append (fun c => c != '\n') sig '\n' [] hp (by decide)
    unfold matchDotStarEnd
    rw [this.1, this.2]

theorem clientTokenMatch_construct (lib ts pid sig tl : List Char)
    (hlib1 : lib ≠ []) (hlib2 : ∀ c ∈ lib, c ≠ '|')
    (hts1 : ts ≠ []) (hts2 : ∀ c ∈ ts, Char.isDigit c = true)
    (hpid1 : pid.length = 36) (hpid2 : ∀ c ∈ pid, isPatronChar c = true)
    (hsig : ∀ c ∈ sig, c ≠ '\n') (htl : tl = [] ∨ tl = ['\n']) :
    clientTokenMatch (lib ++ '|' :: (ts ++ '|' :: (pid ++ '|' :: (sig ++ tl))))
      = some (lib, ts, pid, sig) := by
  have hsp := splitFirstPipe_append lib (ts ++ '|' :: (pid ++ '|' :: (sig ++ tl))) hlib2
  have htw := takeWhile_all_append Char.isDigit ts '|' (pid ++ '|' :: (sig ++ tl))
    hts2 (by decide)
  have htake : (pid ++ '|' :: (sig ++ tl)).take 36 = pid := List.take_left' hpid1
  have hdrop : (pid ++ '|' :: (sig ++ tl)).drop 36 = '|' :: (sig ++ tl) :=
    List.drop_left' hpid1
  have hall : pid.all isPatronChar = true := List.all_eq_true.mpr hpid2
  have hmde := matchDotStarEnd_construct sig tl hsig htl
  unfold clientTokenMatch
  rw [hsp]
  simp only [if_neg hlib1, htw.1, htw.2, if_neg hts1, htake, hdrop, hmde]
  simp [hpid1, hall]

theorem clientTokenMatch_destruct (cs lib ts pid sig : List Char)
    (h : clientTokenMatch cs = some (lib, ts, pid, sig)) :
    ∃ tl, cs = lib ++ '|' :: (ts ++ '|' :: (pid ++ '|' :: (sig ++ tl))) ∧
      lib ≠ [] ∧ (∀ c ∈ lib, c ≠ '|') ∧
      ts ≠ [] ∧ (∀ c ∈ ts, Char.isDigit c = true) ∧
      pid.length = 36 ∧ (∀ c ∈ pid, isPatronChar c = true) ∧
      (∀ c ∈ sig, c ≠ '\n') ∧ (tl = [] ∨ tl = ['\n']) := by
  unfold clientTokenMatch at h
  cases hsp : splitFirstPipe cs with
  | none => rw [hsp] at h; simp at h
  | some p =>
    obtain ⟨lib1, rest1⟩ := p
    rw [hsp] at h
    obtain ⟨hcs1, hlib2⟩ := splitFirstPipe_eq_some cs lib1 rest1 hsp
    simp only at h
    by_cases hl : lib1 = []
    · rw [if_pos hl] at h; simp at h
    · rw [if_neg hl] at h
      have hrest1 := List.takeWhile_append_dropWhile (p := Char.isDigit) (l := rest1)
      cases hdw : rest1.dropWhile Char.isDigit with
      | nil => rw [hdw] at h; simp at h
      | cons c rest3 =>
        rw [hdw] at h hrest1
        simp only at h
        by_cases hts0 : rest1.takeWhile Char.isDigit = []
        · rw [if_pos hts0] at h; simp at h
        · rw [if_neg hts0] at h
          have hc : Char.isDigit c = false := dropWhile_head_false _ rest1 c rest3 hdw
          by_cases hcp : (c != '|') = true
          · rw [if_pos hcp] at h; simp at h
          · rw [if_neg hcp] at h
            have hc2 : c = '|' := by simpa using hcp
            subst hc2
            by_cases hpidok :
                ((rest3.take 36).length = 36 && (rest3.take 36).all isPatronChar) = true
            · rw [if_pos hpidok] at h
              have hrest3 := List.take_append_drop 36 rest3
              cases hdr : rest3.drop 36 with
              | nil => rw [hdr] at h; simp at h
              | cons d rest4 =>
                rw [hdr] at h hrest3
                simp only at h
                by_cases hdp : (d != '|') = true
                · rw [if_pos hdp] at h; simp at h
                · rw [if_neg hdp] at h
                  have hd2 : d = '|' := by simpa using hdp
                  subst hd2
                  cases hmde : matchDotStarEnd rest4 with
                  | none => rw [hmde] at h; simp at h
                  | some sig1 =>
                    rw [hmde] at h
                    simp only [Option.some_inj, Prod.mk.injEq] at h
                    obtain ⟨rfl, rfl, rfl, rfl⟩ := h
                    obtain ⟨hsig, hrest4⟩ := matchDotStarEnd_eq_some rest4 sig1 hmde
                    simp only [Bool.and_eq_true, decide_eq_true_eq] at hpidok
                    rcases hrest4 with h4 | h4
                    · refine ⟨[], ?_, hl, hlib2, hts0,
                        fun c hc => List.mem_takeWhile_imp hc, hpidok.1,
                        List.all_eq_true.mp hpidok.2, hsig, Or.inl rfl⟩
                      rw [List.append_nil, ← h4, hrest3, hrest1]
                      exact hcs1
                    · refine ⟨['\n'], ?_, hl, hlib2, hts0,
                        fun c hc => List.mem_takeWhile_imp hc, hpidok.1,
                        List.all_eq_true.mp hpidok.2, hsig, Or.inr rfl⟩
                      rw [← h4, hrest3, hrest1]
                      exact hcs1
            · rw [if_neg hpidok] at h; simp at h

theorem clientTokenMatch_wrong_pid_length (lib ts pid sig : List Char)
    (hlib1 : lib ≠ []) (hlib2 : ∀ c ∈ lib, c ≠ '|')
    (hts1 : ts ≠ []) (hts2 : ∀ c ∈ ts, Char.isDigit c = true)
    (hpid2 : ∀ c ∈ pid, isPatronChar c = true)
    (hlen : pid.length = 35 ∨ pid.length = 37) :
    clientTokenMatch (tokenOfFields lib ts pid sig) = none := by
  have hsp := splitFirstPipe_append lib (ts ++ '|' :: (pid ++ '|' :: sig)) hlib2
  have htw := takeWhile_all_append Char.isDigit ts '|' (pid ++ '|' :: sig)
    hts2 (by decide)
  unfold tokenOfFields clientTokenMatch
  rw [hsp]
  simp only [if_neg hlib1, htw.1, htw.2, if_neg hts1]
  rcases hlen with h35 | h37
  · have htake : (pid ++ '|' :: sig).take 36 = pid ++ ['|'] ++ sig.take 0 := by
      rw [List.take_append_eq_append_take, List.take_of_length_le (by omega), h35]
      simp
    have hbad : ((pid ++ '|' :: sig).take 36).all isPatronChar = false := by
      rw [htake]
      simp only [List.take_zero, List.append_nil, List.all_append]
      have : isPatronChar '|' = false := by decide
      simp [this]
    simp [hbad]
  · have htake : (pid ++ '|' :: sig).take 36 = pid.take 36 := by
      rw [List.take_append_eq_append_take, h37]
      simp
    have hlen36 : ((pid ++ '|' :: sig).take 36).length = 36 := by
      rw [htake, List.length_take, h37]
      decide
    have hallok : ((pid ++ '|' :: sig).take 36).all isPatronChar = true := by
      rw [htake]
      exact List.all_eq_true.mpr fun c hc =>
        hpid2 c (List.mem_of_mem_take hc)
    have hdroplen : (pid.drop 36).length = 1 := by
      rw [List.length_drop, h37]
    obtain ⟨d, hd⟩ := List.length_eq_one.mp hdroplen
    have hdrop : (pid ++ '|' :: sig).drop 36 = d :: '|' :: sig := by
      rw [List.drop_append_eq_append_drop, h37, hd]
      simp
    have hdmem : d ∈ pid := List.mem_of_mem_drop (hd ▸ List.mem_singleton_self d)
    have hdval : isPatronChar d = true := hpid2 d hdmem
    have hdne : (d != '|') = true := by
      have : d ≠ '|' := by
        intro h
        rw [h] at hdval
        simp [isPatronChar] at hdval
      simpa using this
    rw [hlen36, hallok]
    simp only [hdrop]
    simp [hdne]

/-! ## Helper lemmas about feed grouping -/

theorem groupSizes_appendToGroup (key t : Option String)
    (cols : List (Option String × List (Option String))) :
    groupSizes (appendToGroup key t cols) = groupSizes cols + 1 := by
  induction cols with
  | nil => simp [appendToGroup, groupSizes]
  | cons kv rest ih =>
    obtain ⟨k, v⟩ := kv
    by_cases hk : k = key
    · simp only [appendToGroup, if_pos hk, groupSizes, List.map_cons, List.sum_cons,
        List.length_append, List.length_cons, List.length_nil]
      simp [groupSizes] at ih ⊢
      omega
    · simp only [appendToGroup, if_neg hk, groupSizes, List.map_cons, List.sum_cons]
      simp [groupSizes] at ih ⊢
      omega

theorem foldl_collectStep_sizes (entries : List FeedEntry) :
    ∀ acc, groupSizes (entries.foldl collectStep acc).1
      = groupSizes acc.1 + entries.countP (fun e => e.collection.isSome) := by
  induction entries with
  | nil => intro acc; simp
  | cons e rest ih =>
    intro acc
    rw [List.foldl_cons, ih, List.countP_cons]
    cases hcol : e.collection with
    | none => simp [collectStep, hcol]
    | some ct =>
      simp only [collectStep, hcol]
      rw [groupSizes_appendToGroup]
      simp
      omega

theorem foldl_collectStep_titles (entries : List FeedEntry) :
    ∀ acc, (entries.foldl collectStep acc).2.length = acc.2.length + entries.length := by
  induction entries with
  | nil => intro acc; simp
  | cons e rest ih =>
    intro acc
    rw [List.foldl_cons, ih]
    cases hcol : e.collection with
    | none => simp [collectStep, hcol]; omega
    | some ct => simp [collectStep, hcol]; omega

theorem foldl_collectStep_no_collection (entries : List FeedEntry)
    (h : ∀ e ∈ entries, e.collection = none) :
    ∀ acc, (entries.foldl collectStep acc).1 = acc.1 := by
  induction entries with
  | nil => intro acc; rfl
  | cons e rest ih =>
    intro acc
    rw [List.foldl_cons]
    rw [ih (fun x hx => h x (List.mem_cons_of_mem _ hx))]
    have he := h e (by simp)
    simp [collectStep, he]

theorem countP_some_add_none (entries : List FeedEntry) :
    entries.countP (fun e => e.collection.isSome)
      + entries.countP (fun e => e.collection.isNone) = entries.length := by
  induction entries with
  | nil => rfl
  | cons e rest ih =>
    rw [List.countP_cons, List.countP_cons]
    cases e.collection <;> simp <;> omega

theorem findAuthLink_eq_none (links : List RegLink)
    (h : ∀ l ∈ links, l.linkType ≠ AUTHENTICATION_DOCUMENT) :
    findAuthLink links = none := by
  induction links with
  | nil => rfl
  | cons l rest ih =>
    have hl := h l (by simp)
    simp [findAuthLink, hl, ih (fun x hx => h x (List.mem_cons_of_mem _ hx))]

/-! ## Claim theorems -/

/-- C1, counterexample: on an authentication document whose links array holds
no entry with rel start and an OPDS1-prefixed type (here: no links at all),
`main_catalog` logs the error diagnostic but then hits `links[0]` on the
empty list, raising `IndexError` (the `none` component): construction does
not succeed and no document is returned, contrary to the claim. -/
theorem c1_counterexample :
    main_catalog [] =
      (["Authentication document does not contain a usable 'start' link!"], none) := rfl

/-- C1, amended: for every authentication document whose links contain no
entry with rel start and a type prefix-matching the OPDS1 content type,
`main_catalog` logs the error diagnostic and then raises `IndexError` at
`links[0]`: no document object is constructed, so there is no deferred
first-fetch failure to speak of. -/
theorem c1_main_catalog_no_start_link (links : List AuthLink)
    (h : mainCatalogLinks links = []) :
    main_catalog links =
      (["Authentication document does not contain a usable 'start' link!"], none) := by
  simp [main_catalog, h]

/-- C1, witness for the amended theorem at a concrete document (one link
with the wrong rel). -/
theorem c1_witness :
    main_catalog [{ href := "u", rel := some "stop", linkType := some OPDS_1 }] =
      (["Authentication document does not contain a usable 'start' link!"], none) :=
  c1_main_catalog_no_start_link _ (by decide)

/-- C2, counterexample: a token whose 36-character patron-id field consists
of the letter z — not a hex digit and not a hyphen — decomposes successfully,
because `CLIENT_TOKEN_RE` uses the class `[-A-Za-z0-9]`, not hex-plus-hyphen;
the claim says every such input must fail. -/
theorem c2_counterexample :
    decompose_token "L|1|zzzzzzzzzzzzzzzzzzzzzzzzzzzzzzzzzzzz|x"
        = .ok ("L", "1", "zzzzzzzzzzzzzzzzzzzzzzzzzzzzzzzzzzzz", "x")
      ∧ isHexOrHyphen 'z' = false
      ∧ 'z' ∈ "zzzzzzzzzzzzzzzzzzzzzzzzzzzzzzzzzzzz".data :=
  ⟨rfl, rfl, by decide⟩

/-- C2, amended: decomposition succeeds exactly when the input string, after
optional wrapper stripping, matches the four-field pipe-delimited pattern in
which the patron-id field is exactly 36 characters drawn from the class
`[-A-Za-z0-9]` as the source's `re.IGNORECASE` compilation interprets it:
ASCII letters, digits and hyphens together with the four case-folding
letters U+0130, U+0131, U+017F and U+212A. -/
theorem c2_decompose_iff_pattern (token : String) :
    (∃ r, decompose_token token = .ok r) ↔
      ClientTokenPattern (stripWrapper token.data) := by
  unfold decompose_token
  cases hm : clientTokenMatch (stripWrapper token.data) with
  | none =>
    simp only [hm]
    constructor
    · rintro ⟨r, hr⟩
      simp at hr
    · rintro ⟨lib, ts, pid, sig, tl, heq, h1, h2, h3, h4, h5, h6, h7, h8⟩
      have hc := clientTokenMatch_construct lib ts pid sig tl h1 h2 h3 h4 h5 h6 h7 h8
      rw [heq, hc] at hm
      simp at hm
  | some r4 =>
    obtain ⟨lib, ts, pid, sig⟩ := r4
    simp only [hm]
    constructor
    · intro _
      obtain ⟨tl, heq, h1, h2, h3, h4, h5, h6, h7, h8⟩ :=
        clientTokenMatch_destruct _ lib ts pid sig hm
      exact ⟨lib, ts, pid, sig, tl, heq, h1, h2, h3, h4, h5, h6, h7, h8⟩
    · intro _
      exact ⟨_, rfl⟩

/-- C3: a token whose patron-id field has length 35 or 37, all other fields
well formed, fails decomposition with the invalid-token condition carrying
the offending string, and the failure is fatal: the result is `.error`, so
the sign-in POST of the verify phase is never constructed. -/
theorem c3_patron_len_35_37_fatal (lib ts pid sig : List Char)
    (hlib1 : lib ≠ []) (hlib2 : ∀ c ∈ lib, c ≠ '|')
    (hts1 : ts ≠ []) (hts2 : ∀ c ∈ ts, Char.isDigit c = true)
    (hpid : ∀ c ∈ pid, isPatronChar c = true)
    (hlen : pid.length = 35 ∨ pid.length = 37)
    (hwrap : containsSub "drm:clientToken".data (tokenOfFields lib ts pid sig) = false) :
    validate_short_client_token (String.mk (tokenOfFields lib ts pid sig))
      = .error ("Invalid token: " ++ String.mk (tokenOfFields lib ts pid sig)) := by
  have hmatch := clientTokenMatch_wrong_pid_length lib ts pid sig
    hlib1 hlib2 hts1 hts2 hpid hlen
  unfold validate_short_client_token decompose_token stripWrapper
  have hdata : (String.mk (tokenOfFields lib ts pid sig)).data
      = tokenOfFields lib ts pid sig := rfl
  rw [hdata, hwrap]
  simp [hmatch]

/-- C3, witness: a concrete token with a 35-character patron-id field. -/
theorem c3_witness :
    validate_short_client_token "L|1|3e0d6602-2446-4f1a-bcad-4e68bcffdfc|s"
      = .error "Invalid token: L|1|3e0d6602-2446-4f1a-bcad-4e68bcffdfc|s" := by
  have h := c3_patron_len_35_37_fatal "L".data "1".data
    "3e0d6602-2446-4f1a-bcad-4e68bcffdfc".data "s".data
    (by decide) (by decide) (by decide) (by decide) (by decide)
    (Or.inl (by decide)) (by decide)
  exact h

set_option maxRecDepth 8000 in
/-- C4: the documented example token decomposes to exactly the expected
4-tuple, and wrapping it in a drm:clientToken element yields the identical
tuple after unwrapping. -/
theorem c4_round_trip :
    decompose_token "NYNYPL|1621462513|3e0d6602-2446-4f1a-bcad-4e68bcffdfc1|xzu4JDv93sjAEzx1sSIxyWrXn;zXD62;vsR:LT1y8M0@"
        = .ok ("NYNYPL", "1621462513", "3e0d6602-2446-4f1a-bcad-4e68bcffdfc1",
            "xzu4JDv93sjAEzx1sSIxyWrXn;zXD62;vsR:LT1y8M0@")
      ∧ decompose_token "<drm:clientToken>NYNYPL|1621462513|3e0d6602-2446-4f1a-bcad-4e68bcffdfc1|xzu4JDv93sjAEzx1sSIxyWrXn;zXD62;vsR:LT1y8M0@</drm:clientToken>"
        = .ok ("NYNYPL", "1621462513", "3e0d6602-2446-4f1a-bcad-4e68bcffdfc1",
            "xzu4JDv93sjAEzx1sSIxyWrXn;zXD62;vsR:LT1y8M0@") :=
  ⟨rfl, rfl⟩

/-- C5: on a manifest object lacking the readingOrder key, the
`self-test.py` handler logs the "not present" error and then raises
`KeyError` at `parsed['readingOrder']` (there is no `return` after the
error), while the `model.py` variant of the very same method returns
normally after the error — the claim describes the latter behavior, so the
`self-test.py` script contradicts its own sibling implementation. -/
theorem c5_missing_readingOrder :
    audiobook_validate [] none =
        { events := [.errorMsg "readingOrder not present in audiobook manifest"],
          exc := some "KeyError" }
      ∧ audiobook_validate_model [] none =
        { events := [.errorMsg "readingOrder not present in audiobook manifest"],
          exc := none } :=
  ⟨rfl, rfl⟩

/-- C6: on a manifest whose readingOrder array is non-empty (first item an
object with an href), the handler reports the item count and makes exactly
one recursive dispatch — to the first item's href with that item's declared
type — and passes no credentials on the recursive call, whatever credentials
the original fulfillment carried. -/
theorem c6_audiobook_first_item_dispatch (fields ifields : List (String × Json))
    (rest : List Json) (href : Json) (auth : Option String)
    (horder : jlookup fields "readingOrder" = some (.arr (.obj ifields :: rest)))
    (hhref : jlookup ifields "href" = some href) :
    audiobook_validate fields auth =
      { events := [.printMsg ("Items in reading order: " ++ toString (rest.length + 1)),
          .printMsg "Trying to fulfill first item.",
          .dispatch href "first audiobook item" (jlookup ifields "type") none
            (registryGet (jlookup ifields "type"))],
        exc := none } := by
  unfold audiobook_validate
  rw [horder]
  simp [fulfillReadingOrder, jsonFalsy, jsonLen, hhref]

/-- C6, witness: the spec's example manifest with an ACSM-typed first item
dispatches the ACSM handler at url u with no credentials, although the
original fulfillment carried credentials. -/
theorem c6_witness :
    audiobook_validate
        [("readingOrder",
          Json.arr [Json.obj [("href", Json.str "u"), ("type", Json.str ACSM)]])]
        (some "secret")
      = { events := [.printMsg "Items in reading order: 1",
            .printMsg "Trying to fulfill first item.",
            .dispatch (Json.str "u") "first audiobook item"
              (some (Json.str ACSM)) none .acsm],
          exc := none } := by
  have h := c6_audiobook_first_item_dispatch
    [("readingOrder",
      Json.arr [Json.obj [("href", Json.str "u"), ("type", Json.str ACSM)]])]
    [("href", Json.str "u"), ("type", Json.str ACSM)] [] (Json.str "u")
    (some "secret") rfl rfl
  exact h.trans (by rfl)

/-- C7, counterexample: when the first fetch returns the empty body, the
truthiness-based memo check `if not self._representation` is still true on
the second call, so `get` performs a second request (and returns whatever
the network now says) instead of the cached body — the claim's "including an
empty body" fails. -/
theorem c7_counterexample :
    MakesRequests.get (MakesRequests.get { representation := none } "").state "x"
      = { body := "x", state := { representation := some "x" }, requested := true } :=
  rfl

/-- C7, amended: for every non-empty fetched body, the first `get` performs
the request and caches the body, and every subsequent call returns the
cached body without issuing a request; an empty body defeats the truthiness
check and is re-fetched on every call. -/
theorem c7_memoized_nonempty (b bNew : String) (h : b ≠ "") :
    MakesRequests.get (MakesRequests.get { representation := none } b).state bNew
      = { body := b, state := { representation := some b }, requested := false } := by
  have h1 : MakesRequests.get { representation := none } b
      = { body := b, state := { representation := some b }, requested := true } := rfl
  rw [h1]
  unfold MakesRequests.get
  have hf : pyFalsyRep (some b) = false := by
    simp [pyFalsyRep, h]
  rw [hf]
  simp

/-- C7, witness for the amended theorem at a concrete non-empty body. -/
theorem c7_witness :
    MakesRequests.get (MakesRequests.get { representation := none } "x").state "y"
      = { body := "x", state := { representation := some "x" }, requested := false } :=
  c7_memoized_nonempty "x" "y" (by decide)

/-- C8: feed grouping is a partition — the sum of the per-group title counts
plus the entries carrying no collection link equals the total entry count;
and a feed in which no entry carries a collection link is classified and
reported as ungrouped with the total entry count. -/
theorem c8_feed_partition (entries : List FeedEntry) :
    groupSizes (collectFeed entries).1
        + (entries.filter fun e => e.collection.isNone).length = entries.length
      ∧ ((∀ e ∈ entries, e.collection = none) →
          feedReport entries = .ungrouped entries.length) := by
  constructor
  · rw [collectFeed, foldl_collectStep_sizes]
    have hfl : (entries.filter fun e => e.collection.isNone).length
        = entries.countP fun e => e.collection.isNone := by
      induction entries with
      | nil => rfl
      | cons e rest ih =>
        rw [List.countP_cons, List.filter_cons]
        cases hcol : e.collection <;> simp [hcol] <;> omega
    rw [hfl]
    have := countP_some_add_none entries
    simp [groupSizes]
    omega
  · intro h
    have h1 : (collectFeed entries).1 = [] :=
      foldl_collectStep_no_collection entries h ([], [])
    have h2 : (collectFeed entries).2.length = entries.length := by
      rw [collectFeed, foldl_collectStep_titles]
      simp
    unfold feedReport
    rcases hcf : collectFeed entries with ⟨cols, titles⟩
    rw [hcf] at h1 h2
    subst h1
    simpa using h2

/-- C8, witness: a two-entry feed with no collection links. -/
theorem c8_witness :
    groupSizes (collectFeed
        [{ title := some (some "A"), collection := none },
         { title := none, collection := none }]).1
      + (([{ title := some (some "A"), collection := none },
           { title := none, collection := none }] : List FeedEntry).filter
          fun e => e.collection.isNone).length = 2
    ∧ feedReport
        [{ title := some (some "A"), collection := none },
         { title := none, collection := none }] = .ungrouped 2 := by
  have h := c8_feed_partition
    [{ title := some (some "A"), collection := none },
     { title := none, collection := none }]
  exact ⟨h.1, h.2 (by decide)⟩

/-- C9: Python 3 true division breaks the 2xx test — `201 / 100 != 2` is
true over the rationals, so the fetcher warns with the code for status 201
even though its leading digit is 2, contradicting the claim that no 2xx
status draws a warning (only exactly 200 avoids it). -/
theorem c9_status_code_divergence :
    requestWarnings 201 none none = [Warning.statusCode 201]
      ∧ 201 / 100 = 2
      ∧ requestWarnings 200 none none = [] := by
  refine ⟨?_, by norm_num, ?_⟩
  · have hw : statusWarns 201 = true := by
      simp only [statusWarns, decide_eq_true_eq]
      norm_num
    simp [requestWarnings, hw, pyTruthyStrOpt, pyFalsyRep, PROBLEM_DETAIL]
  · have hw : statusWarns 200 = false := by
      simp only [statusWarns, decide_eq_false_iff_not]
      norm_num
    simp [requestWarnings, hw, pyTruthyStrOpt, pyFalsyRep, PROBLEM_DETAIL]

/-- C10: for every library name in the registry mapping whose catalog has no
link of the authentication-document content type, `authentication_document`
logs the error diagnostic but does not return None: it invokes the
`AuthenticationDocument` constructor with the null URL, which becomes the
constructor's fetch target. -/
theorem c10_no_auth_link_null_url (libraries : List (String × Catalog))
    (name : String) (cat : Catalog)
    (hhttp : name.startsWith "http" = false)
    (hfound : lookupLibrary libraries name = some cat)
    (hnolink : ∀ l ∈ cat.links, l.linkType ≠ AUTHENTICATION_DOCUMENT) :
    authentication_document libraries name
      = (["No authentication link found for library " ++ name], .constructed none) := by
  unfold authentication_document
  rw [hhttp]
  simp only [Bool.false_eq_true, if_false]
  rw [hfound]
  simp [findAuthLink_eq_none cat.links hnolink, pyFalsyRep]

/-- C10, witness: a one-library registry whose only link has a non-auth
content type. -/
theorem c10_witness :
    authentication_document
        [("Lib", { links := [{ linkType := OPDS_2, href := "h" }] })] "Lib"
      = (["No authentication link found for library Lib"], .constructed none) := by
  have h := c10_no_auth_link_null_url
    [("Lib", { links := [{ linkType := OPDS_2, href := "h" }] })] "Lib"
    { links := [{ linkType := OPDS_2, href := "h" }] }
    (by decide) (by decide) (by decide)
  exact h
